import Mathlib

/-!
# Verification of the Quack magic-dot core (src/src-tauri/src/main.rs)

Shallow embedding of the behavioural core of the Quack desktop widget:
the animation stepper (`smooth_resize`, `smooth_move`), the follow-mode
state machine (`follow_magic_dot`), the dock operation (`pin_magic_dot`)
and the active-window watcher (`start_window_watch` with
`get_active_process_name`).

Modelling conventions:
* A window-mutating function is embedded as the ordered list of geometry
  writes it issues (each `window.set_size` / `window.set_position` call
  becomes one list element); emitted UI events become event list elements.
* Rust `u32` sizes are modelled as `Nat`, `i32` coordinates as `Int`.
  The source casts `u32` sizes to `i32` before arithmetic; the model
  treats those casts as exact, which agrees with the machine semantics
  for all values below 2^31 (true of any real screen geometry, and no
  claim probes the wrap-around range).
* Rust `i32` division truncates toward zero, i.e. `Int.tdiv`.
* Fallible platform reads (`outer_position()`, `outer_size()`, window
  lookup, the process probe) are inputs of type `Option _` / `Bool`
  consumed by the embedded functions.
-/

namespace Quack

/-- `tauri::PhysicalSize<u32>`: width and height in physical pixels. -/
structure PhysicalSize where
  width : Nat
  height : Nat
deriving DecidableEq, Repr

/-- `tauri::PhysicalPosition<i32>`: a signed on-screen position. -/
structure PhysicalPosition where
  x : Int
  y : Int
deriving DecidableEq, Repr

/-! ## AnimationStepper: `smooth_resize` (main.rs:67-97) and
`smooth_move` (main.rs:99-128) -/

/-- The intermediate sizes written by the `for i in 1..=steps` loop of
`smooth_resize` (main.rs:82-94): `step_width = (to.width - from.width) / steps`
(`i32` truncating division, computed once), the size applied at step `i`
is `from + step * i` with each component clamped below at 1
(`new_width.max(1) as u32`). -/
def smoothResizeInterm (f t : PhysicalSize) (steps : Nat) : List PhysicalSize :=
  let step_width : Int := ((t.width : Int) - (f.width : Int)).tdiv (steps : Int)
  let step_height : Int := ((t.height : Int) - (f.height : Int)).tdiv (steps : Int)
  (List.range steps).map (fun (j : Nat) =>
    { width := (max 1 ((f.width : Int) + step_width * ((j : Int) + 1))).toNat
      height := (max 1 ((f.height : Int) + step_height * ((j : Int) + 1))).toNat })

/-- `smooth_resize` (main.rs:67-97) as the ordered list of sizes passed to
`window.set_size`. For `steps == 0` the target is applied directly and the
function returns; otherwise the loop writes the clamped interpolants and a
final corrective write applies `to` exactly (main.rs:96). -/
def smooth_resize (f t : PhysicalSize) (steps : Nat) : List PhysicalSize :=
  if steps = 0 then [t]
  else smoothResizeInterm f t steps ++ [t]

/-- `smooth_move` (main.rs:99-128) as the ordered list of positions passed
to `window.set_position`: `dx = (to.x - from.x) / steps` (`i32` truncating
division, computed once), step `i` writes `from + d * i` unclamped, and a
final corrective write applies `to` exactly (main.rs:127). -/
def smooth_move (f t : PhysicalPosition) (steps : Nat) : List PhysicalPosition :=
  if steps = 0 then [t]
  else
    let dx : Int := (t.x - f.x).tdiv (steps : Int)
    let dy : Int := (t.y - f.y).tdiv (steps : Int)
    (List.range steps).map (fun (j : Nat) =>
      { x := f.x + dx * ((j : Int) + 1), y := f.y + dy * ((j : Int) + 1) })
    ++ [t]

end Quack

namespace Quack

/-- C1 sanity: writes of a resize that does not divide evenly. -/
example : smooth_resize ⟨400, 48⟩ ⟨20, 20⟩ 3 =
    [⟨274, 39⟩, ⟨148, 30⟩, ⟨22, 21⟩, ⟨20, 20⟩] := by decide

example : smooth_move ⟨0, 0⟩ ⟨-7, 5⟩ 2 = [⟨-3, 2⟩, ⟨-6, 4⟩, ⟨-7, 5⟩] := by decide

theorem smooth_resize_getLast (f t : PhysicalSize) (steps : Nat) :
    (smooth_resize f t steps).getLast? = some t := by
  unfold smooth_resize
  split
  · rfl
  · exact List.getLast?_concat _

theorem smooth_move_getLast (f t : PhysicalPosition) (steps : Nat) :
    (smooth_move f t steps).getLast? = some t := by
  unfold smooth_move
  split
  · rfl
  · exact List.getLast?_concat _

/-- **C1.** For every from/to size or position and every step count, the
last value applied to the window by `smooth_resize` / `smooth_move` is
exactly `to` (the explicit final corrective write), even when the delta is
not divisible by `steps`; and for `steps = 0` the write list is `[to]`:
`to` is applied directly as the only write, with no intermediate step. -/
theorem smooth_animate_last_write_exact (f t : PhysicalSize)
    (p q : PhysicalPosition) (steps : Nat) :
    (smooth_resize f t steps).getLast? = some t ∧
    (smooth_move p q steps).getLast? = some q ∧
    smooth_resize f t 0 = [t] ∧
    smooth_move p q 0 = [q] :=
  ⟨smooth_resize_getLast f t steps, smooth_move_getLast p q steps,
   by simp [smooth_resize], by simp [smooth_move]⟩

/-- **C5 counterexample.** The claim states the intermediate value applied
at step `i` equals `from + ((to - from) / steps) * i`. For the resize
`100×100 → 0×0` over 10 steps, the formula gives width `100 + (-10)·10 = 0`
at step `i = 10`, but the size actually applied (main.rs:87-90 clamps with
`new_width.max(1)`) is `1×1`. -/
theorem smooth_resize_step_clamped_cex :
    (smooth_resize ⟨100, 100⟩ ⟨0, 0⟩ 10)[9]? = some ⟨1, 1⟩ ∧
    (100 : Int) + (((0 : Int) - 100).tdiv 10) * 10 = 0 := by decide

/-- **C5 (amended).** For every `steps ≥ 1` and `1 ≤ i ≤ steps`, the value
applied at step `i` is the strictly linear interpolant
`from + ((to - from) / steps) * i` (integer truncating division, each
component independently, no easing): exactly for `smooth_move`, and with
each component clamped below at 1 for `smooth_resize`. -/
theorem smooth_animate_step_formula (f t : PhysicalSize) (p q : PhysicalPosition)
    (steps i : Nat) (h1 : 1 ≤ i) (h2 : i ≤ steps) :
    (smooth_resize f t steps)[i - 1]? = some
      ⟨(max 1 ((f.width : Int) + ((t.width : Int) - (f.width : Int)).tdiv steps * i)).toNat,
       (max 1 ((f.height : Int) + ((t.height : Int) - (f.height : Int)).tdiv steps * i)).toNat⟩ ∧
    (smooth_move p q steps)[i - 1]? = some
      ⟨p.x + (q.x - p.x).tdiv steps * i, p.y + (q.y - p.y).tdiv steps * i⟩ := by
  have hs : ¬ steps = 0 := by omega
  have hlt : i - 1 < steps := by omega
  have hcast : ((i - 1 : Nat) : Int) + 1 = (i : Int) := by omega
  constructor
  · unfold smooth_resize smoothResizeInterm
    rw [if_neg hs,
      List.getElem?_append_left (by rw [List.length_map, List.length_range]; exact hlt),
      List.getElem?_map, List.getElem?_range hlt, Option.map_some', hcast]
  · unfold smooth_move
    rw [if_neg hs,
      List.getElem?_append_left (by rw [List.length_map, List.length_range]; exact hlt),
      List.getElem?_map, List.getElem?_range hlt, Option.map_some', hcast]

/-- Witness for `smooth_animate_step_formula` at step 7 of 10 for the
shrink animation `400×48 → 20×20` and a concrete move. -/
theorem smooth_animate_step_formula_witness :
    (smooth_resize ⟨400, 48⟩ ⟨20, 20⟩ 10)[6]? = some
      ⟨(max 1 ((400 : Int) + ((20 : Int) - 400).tdiv 10 * 7)).toNat,
       (max 1 ((48 : Int) + ((20 : Int) - 48).tdiv 10 * 7)).toNat⟩ ∧
    (smooth_move ⟨0, 0⟩ ⟨-7, 5⟩ 10)[6]? = some
      ⟨0 + ((-7 : Int) - 0).tdiv 10 * 7, 0 + ((5 : Int) - 0).tdiv 10 * 7⟩ :=
  smooth_animate_step_formula ⟨400, 48⟩ ⟨20, 20⟩ ⟨0, 0⟩ ⟨-7, 5⟩ 10 7
    (by decide) (by decide)

/-- **C9.** Every intermediate size applied by `smooth_resize` has width
and height at least 1 (the `max(1)` clamp of main.rs:88-89), while the
move animation applies interpolated coordinates unclamped (e.g. moving
from the origin toward `(-100, -100)` writes the negative position
`(-10, -10)` at the first step). -/
theorem smooth_resize_interm_ge_one (f t : PhysicalSize) (steps : Nat)
    (s : PhysicalSize) (hs : s ∈ smoothResizeInterm f t steps) :
    1 ≤ s.width ∧ 1 ≤ s.height ∧
    (smooth_move ⟨0, 0⟩ ⟨-100, -100⟩ 10)[0]? = some ⟨-10, -10⟩ := by
  unfold smoothResizeInterm at hs
  simp only [List.mem_map, List.mem_range] at hs
  obtain ⟨j, hj, rfl⟩ := hs
  refine ⟨?_, ?_, by decide⟩ <;> · dsimp only; omega

/-- Witness for `smooth_resize_interm_ge_one`: the 10th intermediate of
the shrink `100×100 → 0×0` is a member and satisfies the bound. -/
theorem smooth_resize_interm_ge_one_witness :
    1 ≤ (PhysicalSize.mk 1 1).width ∧ 1 ≤ (PhysicalSize.mk 1 1).height ∧
    (smooth_move ⟨0, 0⟩ ⟨-100, -100⟩ 10)[0]? = some ⟨-10, -10⟩ :=
  smooth_resize_interm_ge_one ⟨100, 100⟩ ⟨0, 0⟩ 10 ⟨1, 1⟩ (by decide)

/-! ## FollowModeController: `follow_magic_dot` (main.rs:130-217) -/

/-- One observable action of a follow-mode invocation: a size write
(`window.set_size` inside `smooth_resize`), a position write
(`window.set_position`, main.rs:205-209), or one of the two lifecycle
events emitted to the UI (main.rs:191, main.rs:193). -/
inductive FollowEvent where
  | resizeWrite (s : PhysicalSize)
  | posWrite (p : PhysicalPosition)
  | emitExitFollowMode
  | emitOnboardingDone
deriving DecidableEq, Repr

/-- The decision taken by one follow-loop tick body (main.rs:170-210). -/
inductive TickOutcome where
  | exitFollow
  | moveTo (p : PhysicalPosition)
  | stay
deriving DecidableEq, Repr

/-- `dx` of main.rs:175: mouse x minus the window-center x, the center
being the top-left position plus 10 (half the 20-px dot, main.rs:171). -/
def tickDx (pos mouse : PhysicalPosition) : Int := mouse.x - (pos.x + 10)

/-- `dy` of main.rs:176: mouse y minus the window-center y. -/
def tickDy (pos mouse : PhysicalPosition) : Int := mouse.y - (pos.y + 10)

/-- The tick decision of main.rs:177-210. The source computes
`distance = ((dx*dx + dy*dy) as f64).sqrt()` and branches on
`distance < 20.0` (exit) and `distance > 40.0` (pursuit). Since
`dx*dx + dy*dy` is an integer exactly representable in f64 and f64 `sqrt`
is correctly rounded and monotone with `sqrt 400 = 20` and
`sqrt 1600 = 40` exact, those comparisons coincide with the integer
comparisons on the squared distance used here. The pursuit offset
`((dx as f64) * 0.15) as i32` (truncation toward zero) coincides with the
exact rational truncation `(15 * dx).tdiv 100` for every i32 `dx`: when
`0.15·dx` is an integer (`20 ∣ dx`) the relative f64 error (below `2^-55`
of `0.15`) is under half an ulp of that integer so the product rounds to
it exactly, and otherwise `0.15·dx` is at least `1/20` away from any
integer while the total rounding error is below `2^-24`. -/
def followTick (pos mouse : PhysicalPosition) : TickOutcome :=
  if tickDx pos mouse * tickDx pos mouse + tickDy pos mouse * tickDy pos mouse < 400 then
    .exitFollow
  else if 1600 < tickDx pos mouse * tickDx pos mouse + tickDy pos mouse * tickDy pos mouse then
    .moveTo ⟨pos.x + (15 * tickDx pos mouse).tdiv 100,
             pos.y + (15 * tickDy pos mouse).tdiv 100⟩
  else .stay

/-- The platform inputs consumed by one follow-loop tick: the mouse
sample (`enigo.mouse_location()`, main.rs:166), the result of
`window.outer_position()` (main.rs:169; `none` models `Err`, skipping the
tick body), and the result of `window.outer_size()` (main.rs:183), used
only on exit, where `unwrap_or` falls back to `10×10`. -/
structure FollowInput where
  mouse : PhysicalPosition
  posRead : Option PhysicalPosition
  sizeRead : Option PhysicalSize
deriving DecidableEq, Repr

/-- `original_size` (main.rs:158-161): the size restored on exit. -/
def original_size : PhysicalSize := ⟨400, 48⟩

/-- The 20×20 dot size the shrink animation targets (main.rs:144-147). -/
def dot_size : PhysicalSize := ⟨20, 20⟩

/-- The follow loop (main.rs:164-215) run over a finite list of tick
inputs — a cutoff of the infinite `loop`: an exhausted list means the
loop is still running. Returns the events issued, in order. On exit the
loop expands back to `original_size` (main.rs:189), emits the two
lifecycle events (main.rs:191-193) and breaks; remaining inputs are
never consumed. -/
def followLoop : List FollowInput → List FollowEvent
  | [] => []
  | inp :: rest =>
    match inp.posRead with
    | none => followLoop rest
    | some pos =>
      match followTick pos inp.mouse with
      | .exitFollow =>
        (smooth_resize (inp.sizeRead.getD ⟨10, 10⟩) original_size 10).map .resizeWrite
          ++ [.emitExitFollowMode, .emitOnboardingDone]
      | .moveTo p => .posWrite p :: followLoop rest
      | .stay => followLoop rest

/-- Outcome of invoking `follow_magic_dot`: the window lookup can fail
(main.rs:132-135, logged no-op), the initial size read can fail — in
which case `.unwrap()` at main.rs:138 panics — or the command runs and
issues events. -/
inductive FollowResult where
  | noWindow
  | panicked
  | ran (events : List FollowEvent)
deriving DecidableEq, Repr

/-- `follow_magic_dot` (main.rs:130-217): look up the window, read its
current size (`outer_size().unwrap()`, main.rs:138), shrink it to the
20×20 dot over 10 steps (main.rs:141-150), then run the follow loop on
the spawned thread. -/
def follow_magic_dot (windowFound : Bool) (sizeRead : Option PhysicalSize)
    (inputs : List FollowInput) : FollowResult :=
  if !windowFound then .noWindow
  else
    match sizeRead with
    | none => .panicked
    | some current_size =>
      .ran ((smooth_resize current_size dot_size 10).map .resizeWrite
        ++ followLoop inputs)

/-- Whether the follow loop reaches its exit condition (distance < 20)
while consuming the given inputs. -/
def loopExits : List FollowInput → Bool
  | [] => false
  | inp :: rest =>
    match inp.posRead with
    | none => loopExits rest
    | some pos =>
      match followTick pos inp.mouse with
      | .exitFollow => true
      | _ => loopExits rest

/-- **C2.** For a tick at position `p` with mouse `m`, center `c = p + (10,10)`
and squared distance `d² = dx² + dy²` (equivalently, Euclidean distance
`d`): if `d < 20` the loop exits exactly once — it runs the expand and
the two emits and ignores every further input, never resuming; if
`20 ≤ d ≤ 40` the tick neither writes a position nor changes anything;
if `d > 40` the tick writes exactly `p + trunc(0.15 · (m − c))`
componentwise and the loop continues. -/
theorem follow_tick_zones :
    (∀ (pos mouse : PhysicalPosition) (szRead : Option PhysicalSize)
        (rest : List FollowInput),
      tickDx pos mouse * tickDx pos mouse + tickDy pos mouse * tickDy pos mouse < 400 →
        followTick pos mouse = .exitFollow ∧
        followLoop (⟨mouse, some pos, szRead⟩ :: rest) =
          (smooth_resize (szRead.getD ⟨10, 10⟩) original_size 10).map .resizeWrite
            ++ [.emitExitFollowMode, .emitOnboardingDone]) ∧
    (∀ (pos mouse : PhysicalPosition) (szRead : Option PhysicalSize)
        (rest : List FollowInput),
      400 ≤ tickDx pos mouse * tickDx pos mouse + tickDy pos mouse * tickDy pos mouse →
      tickDx pos mouse * tickDx pos mouse + tickDy pos mouse * tickDy pos mouse ≤ 1600 →
        followTick pos mouse = .stay ∧
        followLoop (⟨mouse, some pos, szRead⟩ :: rest) = followLoop rest) ∧
    (∀ (pos mouse : PhysicalPosition) (szRead : Option PhysicalSize)
        (rest : List FollowInput),
      1600 < tickDx pos mouse * tickDx pos mouse + tickDy pos mouse * tickDy pos mouse →
        followTick pos mouse =
          .moveTo ⟨pos.x + (15 * tickDx pos mouse).tdiv 100,
                   pos.y + (15 * tickDy pos mouse).tdiv 100⟩ ∧
        followLoop (⟨mouse, some pos, szRead⟩ :: rest) =
          .posWrite ⟨pos.x + (15 * tickDx pos mouse).tdiv 100,
                     pos.y + (15 * tickDy pos mouse).tdiv 100⟩ :: followLoop rest) := by
  refine ⟨fun pos mouse szRead rest h => ?_,
          fun pos mouse szRead rest h1 h2 => ?_,
          fun pos mouse szRead rest h => ?_⟩
  · have ht : followTick pos mouse = .exitFollow := by
      unfold followTick; rw [if_pos h]
    exact ⟨ht, by simp only [followLoop, ht]⟩
  · have ht : followTick pos mouse = .stay := by
      unfold followTick; rw [if_neg (by omega), if_neg (by omega)]
    exact ⟨ht, by simp only [followLoop, ht]⟩
  · have ht : followTick pos mouse =
        .moveTo ⟨pos.x + (15 * tickDx pos mouse).tdiv 100,
                 pos.y + (15 * tickDy pos mouse).tdiv 100⟩ := by
      unfold followTick; rw [if_neg (by omega), if_pos h]
    exact ⟨ht, by simp only [followLoop, ht]⟩

/-- Witness for `follow_tick_zones`: the three zones at concrete ticks —
mouse on the dot's center (d = 0), mouse 30 px right (dead zone), mouse
90 px right (pursuit, offset `trunc(0.15·90) = 13`). -/
theorem follow_tick_zones_witness :
    (followTick ⟨0, 0⟩ ⟨10, 10⟩ = .exitFollow ∧
      followLoop [⟨⟨10, 10⟩, some ⟨0, 0⟩, some ⟨20, 20⟩⟩] =
        (smooth_resize ((some (PhysicalSize.mk 20 20)).getD ⟨10, 10⟩)
            original_size 10).map .resizeWrite
          ++ [.emitExitFollowMode, .emitOnboardingDone]) ∧
    (followTick ⟨0, 0⟩ ⟨40, 10⟩ = .stay ∧
      followLoop [⟨⟨40, 10⟩, some ⟨0, 0⟩, none⟩] = followLoop []) ∧
    (followTick ⟨0, 0⟩ ⟨100, 10⟩ =
        .moveTo ⟨0 + (15 * tickDx ⟨0, 0⟩ ⟨100, 10⟩).tdiv 100,
                 0 + (15 * tickDy ⟨0, 0⟩ ⟨100, 10⟩).tdiv 100⟩ ∧
      followLoop [⟨⟨100, 10⟩, some ⟨0, 0⟩, none⟩] =
        .posWrite ⟨0 + (15 * tickDx ⟨0, 0⟩ ⟨100, 10⟩).tdiv 100,
                   0 + (15 * tickDy ⟨0, 0⟩ ⟨100, 10⟩).tdiv 100⟩ :: followLoop []) :=
  ⟨follow_tick_zones.1 ⟨0, 0⟩ ⟨10, 10⟩ (some ⟨20, 20⟩) [] (by decide),
   follow_tick_zones.2.1 ⟨0, 0⟩ ⟨40, 10⟩ none [] (by decide) (by decide),
   follow_tick_zones.2.2 ⟨0, 0⟩ ⟨100, 10⟩ none [] (by decide)⟩

/-- **C4 counterexample.** The claim says no failure in the core takes a
fatal path — in particular a failed size read at follow-mode invocation
time does not terminate the program. But `follow_magic_dot` reads the
size with `window.outer_size().unwrap()` (main.rs:138): when that read
fails with the window present, the command panics instead of degrading
to a no-op. -/
theorem follow_size_read_panics_cex :
    follow_magic_dot true none [] = FollowResult.panicked := rfl

/-- **C4 (amended).** Mid-loop geometry failures are non-fatal: a failed
position read skips exactly that tick and the loop continues with the
remaining inputs, and a failed size read at the exit transition falls
back to `10×10` (`unwrap_or`, main.rs:183-186) and still completes the
expand and both emits. However, a failed size read at follow-mode
invocation time is fatal: `unwrap()` (main.rs:138) panics. -/
theorem follow_failures_nonfatal (inp : FollowInput) (rest : List FollowInput)
    (hskip : inp.posRead = none) :
    followLoop (inp :: rest) = followLoop rest ∧
    (∀ pos mouse : PhysicalPosition,
      followTick pos mouse = TickOutcome.exitFollow →
        followLoop (⟨mouse, some pos, none⟩ :: rest) =
          (smooth_resize ⟨10, 10⟩ original_size 10).map FollowEvent.resizeWrite
            ++ [FollowEvent.emitExitFollowMode, FollowEvent.emitOnboardingDone]) ∧
    follow_magic_dot true none rest = FollowResult.panicked := by
  refine ⟨by simp only [followLoop, hskip], fun pos mouse ht => ?_, rfl⟩
  simp only [followLoop, ht, Option.getD]

/-- Witness for `follow_failures_nonfatal` at a concrete failing tick. -/
theorem follow_failures_nonfatal_witness :
    followLoop [⟨⟨0, 0⟩, none, none⟩] = followLoop [] ∧
    (∀ pos mouse : PhysicalPosition,
      followTick pos mouse = TickOutcome.exitFollow →
        followLoop (⟨mouse, some pos, none⟩ :: ([] : List FollowInput)) =
          (smooth_resize ⟨10, 10⟩ original_size 10).map FollowEvent.resizeWrite
            ++ [FollowEvent.emitExitFollowMode, FollowEvent.emitOnboardingDone]) ∧
    follow_magic_dot true none [] = FollowResult.panicked :=
  follow_failures_nonfatal ⟨⟨0, 0⟩, none, none⟩ [] rfl

/-- When the loop exits within its inputs, the events it issues are: the
pre-exit pursuit position writes, then one expand animation, then the
two lifecycle emits — nothing after, nothing else. -/
theorem followLoop_exit_decomp (inputs : List FollowInput)
    (h : loopExits inputs = true) :
    ∃ (ticks : List PhysicalPosition) (expandFrom : PhysicalSize),
      followLoop inputs =
        ticks.map FollowEvent.posWrite
          ++ (smooth_resize expandFrom original_size 10).map FollowEvent.resizeWrite
          ++ [FollowEvent.emitExitFollowMode, FollowEvent.emitOnboardingDone] := by
  induction inputs with
  | nil => exact absurd h (by simp [loopExits])
  | cons inp rest ih =>
    cases hp : inp.posRead with
    | none =>
      obtain ⟨ticks, ef, heq⟩ := ih (by simpa [loopExits, hp] using h)
      exact ⟨ticks, ef, by simp only [followLoop, hp, heq]⟩
    | some pos =>
      cases ht : followTick pos inp.mouse with
      | exitFollow =>
        exact ⟨[], inp.sizeRead.getD ⟨10, 10⟩, by simp only [followLoop, hp, ht,
          List.map_nil, List.nil_append]⟩
      | moveTo p =>
        obtain ⟨ticks, ef, heq⟩ := ih (by simpa [loopExits, hp, ht] using h)
        exact ⟨p :: ticks, ef, by simp only [followLoop, hp, ht, heq,
          List.map_cons, List.cons_append]⟩
      | stay =>
        obtain ⟨ticks, ef, heq⟩ := ih (by simpa [loopExits, hp, ht] using h)
        exact ⟨ticks, ef, by simp only [followLoop, hp, ht, heq]⟩

/-- **C6.** Within a single follow-mode invocation whose loop reaches the
exit condition, the event sequence decomposes as: all shrink writes,
strictly before all follow-tick position writes, strictly before all
expand writes, strictly before `exit_follow_mode`, strictly before
`onboarding_done`; each lifecycle emit occurs exactly once and no follow
tick (position write) occurs after them. -/
theorem follow_invocation_ordering (sz : PhysicalSize) (inputs : List FollowInput)
    (h : loopExits inputs = true) :
    ∃ (ticks : List PhysicalPosition) (expandFrom : PhysicalSize),
      follow_magic_dot true (some sz) inputs =
        .ran ((smooth_resize sz dot_size 10).map FollowEvent.resizeWrite
          ++ (ticks.map FollowEvent.posWrite
            ++ (smooth_resize expandFrom original_size 10).map FollowEvent.resizeWrite
            ++ [FollowEvent.emitExitFollowMode, FollowEvent.emitOnboardingDone])) ∧
      ∀ (shrinkW tickW expandW : List FollowEvent),
        shrinkW = (smooth_resize sz dot_size 10).map FollowEvent.resizeWrite →
        tickW = ticks.map FollowEvent.posWrite →
        expandW = (smooth_resize expandFrom original_size 10).map FollowEvent.resizeWrite →
          (shrinkW ++ (tickW ++ expandW ++ [FollowEvent.emitExitFollowMode,
              FollowEvent.emitOnboardingDone])).count FollowEvent.emitExitFollowMode = 1 ∧
          (shrinkW ++ (tickW ++ expandW ++ [FollowEvent.emitExitFollowMode,
              FollowEvent.emitOnboardingDone])).count FollowEvent.emitOnboardingDone = 1 := by
  obtain ⟨ticks, ef, heq⟩ := followLoop_exit_decomp inputs h
  refine ⟨ticks, ef, ?_, ?_⟩
  · simp only [follow_magic_dot, Bool.not_true, Bool.false_eq_true, if_false, heq]
  · rintro shrinkW tickW expandW rfl rfl rfl
    have hza : ∀ l : List PhysicalSize,
        (List.map FollowEvent.resizeWrite l).count FollowEvent.emitExitFollowMode = 0 :=
      fun l => List.count_eq_zero_of_not_mem (by simp)
    have hzb : ∀ l : List PhysicalPosition,
        (List.map FollowEvent.posWrite l).count FollowEvent.emitExitFollowMode = 0 :=
      fun l => List.count_eq_zero_of_not_mem (by simp)
    have hzc : ∀ l : List PhysicalSize,
        (List.map FollowEvent.resizeWrite l).count FollowEvent.emitOnboardingDone = 0 :=
      fun l => List.count_eq_zero_of_not_mem (by simp)
    have hzd : ∀ l : List PhysicalPosition,
        (List.map FollowEvent.posWrite l).count FollowEvent.emitOnboardingDone = 0 :=
      fun l => List.count_eq_zero_of_not_mem (by simp)
    constructor <;> simp [List.count_append, List.count_cons, hza, hzb, hzc, hzd]

/-- Witness for `follow_invocation_ordering`: the widget starts at
400×48, the single tick finds the mouse on the dot's center. -/
theorem follow_invocation_ordering_witness :
    ∃ (ticks : List PhysicalPosition) (expandFrom : PhysicalSize),
      follow_magic_dot true (some ⟨400, 48⟩) [⟨⟨10, 10⟩, some ⟨0, 0⟩, some ⟨20, 20⟩⟩] =
        .ran ((smooth_resize ⟨400, 48⟩ dot_size 10).map FollowEvent.resizeWrite
          ++ (ticks.map FollowEvent.posWrite
            ++ (smooth_resize expandFrom original_size 10).map FollowEvent.resizeWrite
            ++ [FollowEvent.emitExitFollowMode, FollowEvent.emitOnboardingDone])) ∧
      ∀ (shrinkW tickW expandW : List FollowEvent),
        shrinkW = (smooth_resize ⟨400, 48⟩ dot_size 10).map FollowEvent.resizeWrite →
        tickW = ticks.map FollowEvent.posWrite →
        expandW = (smooth_resize expandFrom original_size 10).map FollowEvent.resizeWrite →
          (shrinkW ++ (tickW ++ expandW ++ [FollowEvent.emitExitFollowMode,
              FollowEvent.emitOnboardingDone])).count FollowEvent.emitExitFollowMode = 1 ∧
          (shrinkW ++ (tickW ++ expandW ++ [FollowEvent.emitExitFollowMode,
              FollowEvent.emitOnboardingDone])).count FollowEvent.emitOnboardingDone = 1 :=
  follow_invocation_ordering ⟨400, 48⟩ [⟨⟨10, 10⟩, some ⟨0, 0⟩, some ⟨20, 20⟩⟩] (by decide)

/-! ## DockController: `pin_magic_dot` (main.rs:219-240) -/

/-- `pin_magic_dot` (main.rs:219-240): requires the window, its position,
its size and its hosting monitor (`Ok`/`Ok`/`Ok(Some _)`, main.rs:221-226);
otherwise a logged no-op issuing no writes. On success it computes
`center_x = ((screen.width as i32 - size.width as i32) / 2).max(0)`
(main.rs:229) and moves to `(center_x, 0)` via `smooth_move` over 10
steps. Embedded as the ordered list of position writes. -/
def pin_magic_dot (windowFound : Bool) (posRead : Option PhysicalPosition)
    (sizeRead : Option PhysicalSize) (monitorRead : Option PhysicalSize) :
    List PhysicalPosition :=
  if windowFound then
    match posRead, sizeRead, monitorRead with
    | some current_pos, some current_size, some screen_size =>
      let center_x : Int :=
        max (((screen_size.width : Int) - (current_size.width : Int)).tdiv 2) 0
      smooth_move current_pos ⟨center_x, 0⟩ 10
    | _, _, _ => []
  else []

/-- **C7.** For every monitor width and window geometry available at dock
time, the final position applied by `pin_magic_dot` is
`x = max(0, (monitorWidth − windowWidth) / 2)` (integer truncating
division), `y = 0`; in particular a 20-wide widget on a 1920-px monitor
ends at `(950, 0)`. -/
theorem pin_magic_dot_target (p : PhysicalPosition) (sz screen : PhysicalSize) :
    (pin_magic_dot true (some p) (some sz) (some screen)).getLast? =
      some ⟨max 0 (((screen.width : Int) - (sz.width : Int)).tdiv 2), 0⟩ ∧
    (pin_magic_dot true (some ⟨100, 100⟩) (some ⟨20, 20⟩)
        (some ⟨1920, 1080⟩)).getLast? = some ⟨950, 0⟩ := by
  constructor
  · unfold pin_magic_dot
    rw [if_pos rfl, max_comm]
    exact smooth_move_getLast _ _ _
  · decide

/-! ## ActiveWindowWatcher: `get_active_process_name` (main.rs:18-65) and
`start_window_watch` (main.rs:242-264) -/

/-- The `.exe` suffix removed by `get_active_process_name` (main.rs:53). -/
def exeSuffix : List Char := ['.', 'e', 'x', 'e']

/-- The suffix strip of main.rs:52-57: if the resolved name ends with
`.exe`, keep everything but the last four characters
(`process_name[..process_name.len() - 4]`); otherwise pass it through
unchanged. Names are modelled as lists of characters. -/
def stripExe (process_name : List Char) : List Char :=
  if exeSuffix <:+ process_name then process_name.take (process_name.length - 4)
  else process_name

/-- `get_active_process_name` (main.rs:18-65). The OS lookup chain
(`GetForegroundWindow`, `OpenProcess`, `GetModuleBaseNameW`, UTF-16
decode) is an external probe modelled as an optional raw name (`none`
covers every failure: no foreground window, pid 0, handle failure, empty
buffer, invalid unicode); on success the `.exe` suffix is stripped. -/
def get_active_process_name (raw : Option (List Char)) : Option (List Char) :=
  raw.map stripExe

/-- The reserved self-identifier `"quack"` (main.rs:249). -/
def quackName : List Char := ['q', 'u', 'a', 'c', 'k']

/-- The platform inputs of one watcher poll tick (main.rs:248-258): the
raw probe outcome and whether `app.get_webview_window("magic-dot")`
finds the widget window. -/
structure WatchInput where
  raw : Option (List Char)
  windowFound : Bool
deriving DecidableEq, Repr

/-- One iteration of the watcher loop body (main.rs:248-258), from the
current `last_title` state: if the probe resolves a name that differs
from `last_title`, is non-empty and is not `"quack"`, then the
`active_window_changed` notification is emitted when the magic-dot
window is found (main.rs:251-255) and `last_title` is updated either way
(main.rs:256). Returns (emitted notification, new `last_title`). -/
def watchStep (last_title : List Char) (inp : WatchInput) :
    Option (List Char) × List Char :=
  match get_active_process_name inp.raw with
  | none => (none, last_title)
  | some process_name =>
    if process_name ≠ last_title ∧ process_name ≠ [] ∧ process_name ≠ quackName then
      ((if inp.windowFound then some process_name else none), process_name)
    else (none, last_title)

/-- The watcher loop run over a finite list of poll inputs, returning the
notifications emitted, in order. -/
def watchRun : List Char → List WatchInput → List (List Char)
  | _, [] => []
  | last_title, inp :: rest =>
    match watchStep last_title inp with
    | (some n, st) => n :: watchRun st rest
    | (none, st) => watchRun st rest

theorem watchStep_resolved (last_title name : List Char) (inp : WatchInput)
    (h : get_active_process_name inp.raw = some name) :
    watchStep last_title inp =
      (if name ≠ last_title ∧ name ≠ [] ∧ name ≠ quackName then
        ((if inp.windowFound then some name else none), name)
      else (none, last_title)) := by
  unfold watchStep
  rw [h]

/-- **C8.** A resolved name ending in `.exe` has exactly that suffix
stripped before it is compared or used in a notification
(`get_active_process_name` returns the stripped name, which is what the
watcher compares and emits), and a name without the suffix passes
through unchanged. -/
theorem strip_exe_suffix (n s : List Char) (h : ¬ exeSuffix <:+ s) :
    stripExe (n ++ exeSuffix) = n ∧
    get_active_process_name (some (n ++ exeSuffix)) = some n ∧
    stripExe s = s ∧
    get_active_process_name (some s) = some s := by
  have h1 : stripExe (n ++ exeSuffix) = n := by
    unfold stripExe
    rw [if_pos ⟨n, rfl⟩, List.length_append]
    show List.take (n.length + 4 - 4) (n ++ exeSuffix) = n
    rw [Nat.add_sub_cancel]
    exact List.take_left n exeSuffix
  have h3 : stripExe s = s := by
    unfold stripExe
    rw [if_neg h]
  exact ⟨h1, by simp [get_active_process_name, h1], h3,
    by simp [get_active_process_name, h3]⟩

/-- Witness for `strip_exe_suffix`: `firefox.exe ↦ firefox` and
`code ↦ code`. -/
theorem strip_exe_suffix_witness :
    stripExe (['f', 'i', 'r', 'e', 'f', 'o', 'x'] ++ exeSuffix) =
      ['f', 'i', 'r', 'e', 'f', 'o', 'x'] ∧
    get_active_process_name (some (['f', 'i', 'r', 'e', 'f', 'o', 'x'] ++ exeSuffix)) =
      some ['f', 'i', 'r', 'e', 'f', 'o', 'x'] ∧
    stripExe ['c', 'o', 'd', 'e'] = ['c', 'o', 'd', 'e'] ∧
    get_active_process_name (some ['c', 'o', 'd', 'e']) = some ['c', 'o', 'd', 'e'] :=
  strip_exe_suffix ['f', 'i', 'r', 'e', 'f', 'o', 'x'] ['c', 'o', 'd', 'e'] (by decide)

/-- **C3 counterexample.** The claim says the watcher notifies if and
only if the resolved name is non-empty, differs from the last known name
and is not `"quack"`. With last known name empty, the probe resolving
`firefox` — all three conditions hold — but the magic-dot window not
found (main.rs:251), no notification is emitted. -/
theorem watch_notify_iff_cex :
    get_active_process_name (some ['f', 'i', 'r', 'e', 'f', 'o', 'x']) =
      some ['f', 'i', 'r', 'e', 'f', 'o', 'x'] ∧
    (['f', 'i', 'r', 'e', 'f', 'o', 'x'] : List Char) ≠ [] ∧
    ['f', 'i', 'r', 'e', 'f', 'o', 'x'] ≠ quackName ∧
    (watchStep [] ⟨some ['f', 'i', 'r', 'e', 'f', 'o', 'x'], false⟩).1 = none := by
  decide

/-- **C3 (amended).** The watcher emits `active_window_changed` with the
resolved name if and only if the name differs from the last known name,
is non-empty, is not `"quack"` **and** the magic-dot window is found;
anything it emits is that resolved name; and after a notification the
last known name equals the notified name, so a tick resolving the same
name never notifies twice in a row. -/
theorem watch_notify_iff (last_title name : List Char) (inp : WatchInput)
    (h : get_active_process_name inp.raw = some name) :
    ((watchStep last_title inp).1 = some name ↔
      name ≠ last_title ∧ name ≠ [] ∧ name ≠ quackName ∧ inp.windowFound = true) ∧
    ((watchStep last_title inp).1 = none ∨ (watchStep last_title inp).1 = some name) ∧
    ((watchStep last_title inp).1 = some name →
      (watchStep last_title inp).2 = name ∧
      ∀ inp2 : WatchInput, get_active_process_name inp2.raw = some name →
        (watchStep name inp2).1 = none) := by
  have hsame : ∀ inp2 : WatchInput, get_active_process_name inp2.raw = some name →
      (watchStep name inp2).1 = none := by
    intro inp2 h2
    rw [watchStep_resolved name name inp2 h2, if_neg (fun hc => hc.1 rfl)]
  have hstep := watchStep_resolved last_title name inp h
  by_cases hc : name ≠ last_title ∧ name ≠ [] ∧ name ≠ quackName
  · rw [hstep, if_pos hc]
    cases hwf : inp.windowFound with
    | false =>
      refine ⟨?_, Or.inl (by simp [hwf]), fun habs => absurd habs (by simp [hwf])⟩
      simp only [hwf]
      exact iff_of_false (by simp) (fun hr => by simp at hr)
    | true =>
      refine ⟨?_, Or.inr (by simp [hwf]), fun _ => ⟨rfl, hsame⟩⟩
      simp only [hwf]
      exact iff_of_true (by simp) ⟨hc.1, hc.2.1, hc.2.2, trivial⟩
  · rw [hstep, if_neg hc]
    refine ⟨?_, Or.inl rfl, fun habs => absurd habs (by simp)⟩
    exact iff_of_false (by simp) (fun hr => hc ⟨hr.1, hr.2.1, hr.2.2.1⟩)

/-- Witness for `watch_notify_iff`: the probe resolves `firefox`, the
window is found, the last known name is empty. -/
theorem watch_notify_iff_witness :
    ((watchStep [] ⟨some ['f', 'i', 'r', 'e', 'f', 'o', 'x'], true⟩).1 =
        some ['f', 'i', 'r', 'e', 'f', 'o', 'x'] ↔
      ['f', 'i', 'r', 'e', 'f', 'o', 'x'] ≠ ([] : List Char) ∧
      ['f', 'i', 'r', 'e', 'f', 'o', 'x'] ≠ ([] : List Char) ∧
      ['f', 'i', 'r', 'e', 'f', 'o', 'x'] ≠ quackName ∧
      (WatchInput.mk (some ['f', 'i', 'r', 'e', 'f', 'o', 'x']) true).windowFound = true) ∧
    ((watchStep [] ⟨some ['f', 'i', 'r', 'e', 'f', 'o', 'x'], true⟩).1 = none ∨
      (watchStep [] ⟨some ['f', 'i', 'r', 'e', 'f', 'o', 'x'], true⟩).1 =
        some ['f', 'i', 'r', 'e', 'f', 'o', 'x']) ∧
    ((watchStep [] ⟨some ['f', 'i', 'r', 'e', 'f', 'o', 'x'], true⟩).1 =
        some ['f', 'i', 'r', 'e', 'f', 'o', 'x'] →
      (watchStep [] ⟨some ['f', 'i', 'r', 'e', 'f', 'o', 'x'], true⟩).2 =
        ['f', 'i', 'r', 'e', 'f', 'o', 'x'] ∧
      ∀ inp2 : WatchInput,
        get_active_process_name inp2.raw = some ['f', 'i', 'r', 'e', 'f', 'o', 'x'] →
          (watchStep ['f', 'i', 'r', 'e', 'f', 'o', 'x'] inp2).1 = none) :=
  watch_notify_iff [] ['f', 'i', 'r', 'e', 'f', 'o', 'x']
    ⟨some ['f', 'i', 'r', 'e', 'f', 'o', 'x'], true⟩ (by decide)

theorem watchStep_same_name (st : List Char) (i : WatchInput)
    (h : get_active_process_name i.raw = some st) : watchStep st i = (none, st) := by
  rw [watchStep_resolved st st i h, if_neg (fun hc => hc.1 rfl)]

theorem watchStep_no_probe (st : List Char) (i : WatchInput)
    (h : get_active_process_name i.raw = none) : watchStep st i = (none, st) := by
  unfold watchStep
  rw [h]

/-- **C10.** When the probe resolves a new non-empty, non-`"quack"` name
that differs from the last known name but the magic-dot window is not
found, nothing is emitted yet `last_title` is still updated to the new
name (main.rs:256 sits outside the window lookup); consequently, as long
as every later poll resolves that same name (or fails), no notification
for it is ever emitted — even after the window becomes available. -/
theorem watch_missing_window_swallows (last_title name : List Char) (inp : WatchInput)
    (h : get_active_process_name inp.raw = some name)
    (hcond : name ≠ last_title ∧ name ≠ [] ∧ name ≠ quackName)
    (hwf : inp.windowFound = false) :
    (watchStep last_title inp).1 = none ∧
    (watchStep last_title inp).2 = name ∧
    ∀ inps : List WatchInput,
      (∀ i ∈ inps, get_active_process_name i.raw = some name ∨
        get_active_process_name i.raw = none) →
      watchRun name inps = [] := by
  have hstep : watchStep last_title inp = (none, name) := by
    rw [watchStep_resolved last_title name inp h, if_pos hcond, hwf]
    rfl
  refine ⟨by rw [hstep], by rw [hstep], ?_⟩
  intro inps hall
  induction inps with
  | nil => rfl
  | cons i rest ih =>
    have hi := hall i (List.mem_cons_self i rest)
    have hrest := fun j hj => hall j (List.mem_cons_of_mem i hj)
    cases hi with
    | inl hsome => simp only [watchRun, watchStep_same_name name i hsome]; exact ih hrest
    | inr hnone => simp only [watchRun, watchStep_no_probe name i hnone]; exact ih hrest

/-- Witness for `watch_missing_window_swallows`: the probe resolves
`firefox.exe` (stripped to `firefox`) while the window is missing; a
later poll resolving the same name emits nothing. -/
theorem watch_missing_window_swallows_witness :
    (watchStep [] ⟨some ['f', 'i', 'r', 'e', 'f', 'o', 'x', '.', 'e', 'x', 'e'],
        false⟩).1 = none ∧
    (watchStep [] ⟨some ['f', 'i', 'r', 'e', 'f', 'o', 'x', '.', 'e', 'x', 'e'],
        false⟩).2 = ['f', 'i', 'r', 'e', 'f', 'o', 'x'] ∧
    ∀ inps : List WatchInput,
      (∀ i ∈ inps,
        get_active_process_name i.raw = some ['f', 'i', 'r', 'e', 'f', 'o', 'x'] ∨
        get_active_process_name i.raw = none) →
      watchRun ['f', 'i', 'r', 'e', 'f', 'o', 'x'] inps = [] :=
  watch_missing_window_swallows [] ['f', 'i', 'r', 'e', 'f', 'o', 'x']
    ⟨some ['f', 'i', 'r', 'e', 'f', 'o', 'x', '.', 'e', 'x', 'e'], false⟩
    (by decide) (by decide) rfl

end Quack
